import Mathlib

/-!
Verification of the cursortab.nvim completion server against its
natural-language specification.  Each Go function named in the claims is
shallowly embedded as an executable Lean definition (strings are lists of
characters where character-level slicing matters, `String` where lines are
treated atomically; Go `int` is `Int`), and the claims are settled as
theorems about those definitions.
-/

namespace Cursortab

/-! ## String machinery shared by the provider embeddings.

Text that Go slices byte-wise is modelled as `List Char` (all inputs in the
claims are ASCII, where the two coincide). -/

abbrev Str := List Char

/-- Go `strings.Split(s, "\n")`: always returns at least one element. -/
def splitNL : Str → List Str
  | [] => [[]]
  | c :: rest =>
    if c = '\n' then [] :: splitNL rest
    else
      match splitNL rest with
      | [] => [[c]]
      | l :: ls => (c :: l) :: ls

/-- Go `strings.Join(ls, "\n")`. -/
def joinNL (ls : List Str) : Str := (List.intersperse ['\n'] ls).flatten

/-- Whitespace per Go `unicode.IsSpace`, restricted to ASCII. -/
def isWS (c : Char) : Bool :=
  c = ' ' ∨ c = '\t' ∨ c = '\n' ∨ c = '\r' ∨ c = '\x0b' ∨ c = '\x0c'

/-- Go `strings.TrimSpace` (leading and trailing whitespace removed). -/
def trimSpace (s : Str) : Str :=
  ((s.dropWhile isWS).reverse.dropWhile isWS).reverse

/-- Trailing whitespace removed, as in `strings.TrimRight(s, " \t\n\r")`. -/
def trimRightWS (s : Str) : Str := (s.reverse.dropWhile isWS).reverse

/-- Go `strings.Index(s, pat)` in characters: the first position where `pat`
is a prefix of the remainder, `none` when there is no such position. -/
def indexOfSub : Str → Str → Option Nat
  | s, pat =>
    if pat.isPrefixOf s then some 0
    else
      match s with
      | [] => none
      | _ :: t => (indexOfSub t pat).map (· + 1)

/-- Fuelled scan of `replaceAll`; every step consumes at least one source
character, so fuel `s.length` is exact (the 0-fuel fallback is unreachable). -/
def replaceAllGo (pat rep : Str) : Nat → Str → Str
  | 0, s => s
  | Nat.succ fuel, s =>
    match s with
    | [] => []
    | c :: t =>
      if pat ≠ [] ∧ pat.isPrefixOf (c :: t) then
        rep ++ replaceAllGo pat rep fuel ((c :: t).drop pat.length)
      else
        c :: replaceAllGo pat rep fuel t

/-- Go `strings.ReplaceAll(s, pat, rep)` for a non-empty pattern (the only
way the sources call it); an empty pattern leaves `s` unchanged. -/
def replaceAll (s pat rep : Str) : Str := replaceAllGo pat rep s.length s

/-- Ascending insertion of an integer into a sorted list (helper of `sortInts`). -/
def insertSortedInt (x : Int) : List Int → List Int
  | [] => [x]
  | y :: ys => if x ≤ y then x :: y :: ys else y :: insertSortedInt x ys

/-- Go `sort.Ints`: ascending sort of the change keys. -/
def sortInts : List Int → List Int
  | [] => []
  | x :: xs => insertSortedInt x (sortInts xs)

/-- Stable insertion for `stableSortBy` (an element passes over `y` only when
`less y x`, so equal elements keep their original order). -/
def stableInsertBy (less : α → α → Bool) (x : α) : List α → List α
  | [] => [x]
  | y :: ys => if less y x then y :: stableInsertBy less x ys else x :: y :: ys

/-- Go `sort.SliceStable` with comparison `less`. -/
def stableSortBy (less : α → α → Bool) : List α → List α
  | [] => []
  | x :: xs => stableInsertBy less x (stableSortBy less xs)

namespace Text

/-! ## Line-diff data model and the staging planner.

Shallow embedding of `server/text/staging.go` (`CreateStages` and its
helpers).  Go's `map[int]LineDiff` is an association list with distinct
keys; every consumer in the source either sorts the keys or folds with an
order-insensitive min/max, so the list order is immaterial.  Line contents
are `String` because staging never slices inside a line. -/

inductive ChangeType where
  | lineAddition
  | lineDeletion
  | lineModification
  | lineAppendChars
  | lineDeleteChars
  | lineReplaceChars
  | lineModificationGroup
  | lineAdditionGroup
deriving DecidableEq

structure LineDiff where
  type : ChangeType
  lineNumber : Int := 0
  oldLineNum : Int := 0
  newLineNum : Int := 0
  content : String := ""
  oldContent : String := ""
  startLine : Int := 0
  endLine : Int := 0
deriving DecidableEq

/-- Go zero value of `LineDiff` (returned by a map lookup on a missing key;
never reached because cluster keys always come from the map). -/
def dfltLineDiff : LineDiff := { type := ChangeType.lineAddition }

structure LineMapping where
  newToOld : List Int
  oldToNew : List Int
deriving DecidableEq

structure DiffResult where
  changes : List (Int × LineDiff)
  lineMapping : Option LineMapping := none
  oldLineCount : Int := 0
  newLineCount : Int := 0
deriving DecidableEq

structure Completion where
  startLine : Int
  endLineInc : Int
  lines : List String
deriving DecidableEq

structure CursorPredictionTarget where
  relativePath : String
  lineNumber : Int
  shouldRetrigger : Bool
deriving DecidableEq

structure VisualGroup where
  type : String
  startLine : Int
  endLine : Int
  lines : List String := []
  oldLines : List String := []
deriving DecidableEq

structure CompletionStage where
  completion : Completion
  cursorTarget : CursorPredictionTarget
  isLastStage : Bool
  visualGroups : List VisualGroup
deriving DecidableEq

structure ChangeCluster where
  startLine : Int
  endLine : Int
  changes : List (Int × LineDiff)
deriving DecidableEq

/-- Whether a change record is one of the two group types. -/
def isGroupType (t : ChangeType) : Bool :=
  t = ChangeType.lineModificationGroup ∨ t = ChangeType.lineAdditionGroup

/-- Backwards scan of `getBufferLineForChange`: the nearest index `i ≤ start`
with `newToOld[i] > 0`. -/
def findMappedBack (newToOld : List Int) : Nat → Option Int
  | 0 => if newToOld.getD 0 0 > 0 then some (newToOld.getD 0 0) else none
  | Nat.succ k =>
    if newToOld.getD (k + 1) 0 > 0 then some (newToOld.getD (k + 1) 0)
    else findMappedBack newToOld k

/-- Buffer line of a change: `OldLineNum` when set, else the anchor found
through the line mapping, else the map key (`getBufferLineForChange`). -/
def getBufferLineForChange (change : LineDiff) (mapKey baseLineOffset : Int)
    (mapping : Option LineMapping) : Int :=
  if change.oldLineNum > 0 then change.oldLineNum + baseLineOffset - 1
  else
    match mapping with
    | some m =>
      if change.newLineNum > 0 ∧ change.newLineNum ≤ (m.newToOld.length : Int) then
        let oldLine := m.newToOld.getD (change.newLineNum - 1).toNat 0
        if oldLine > 0 then oldLine + baseLineOffset - 1
        else
          match
            (if change.newLineNum - 2 < 0 then none
             else findMappedBack m.newToOld (change.newLineNum - 2).toNat) with
          | some o => o + baseLineOffset - 1
          | none => mapKey + baseLineOffset - 1
      else mapKey + baseLineOffset - 1
    | none => mapKey + baseLineOffset - 1

/-- End line of a change within clustering: `EndLine` for group records,
otherwise the map key. -/
def changeEndLine (key : Int) (change : LineDiff) : Int :=
  if isGroupType change.type then change.endLine else key

/-- One step of `groupChangesByProximity`: extend the current cluster when
the gap fits the threshold, otherwise flush it and start a new one. -/
def groupStep (diff : DiffResult) (proximityThreshold : Int)
    (st : List ChangeCluster × Option ChangeCluster) (lineNum : Int) :
    List ChangeCluster × Option ChangeCluster :=
  let change := (diff.changes.lookup lineNum).getD dfltLineDiff
  let endLine := changeEndLine lineNum change
  match st.2 with
  | none => (st.1, some ⟨lineNum, endLine, [(lineNum, change)]⟩)
  | some cur =>
    let gap := lineNum - cur.endLine
    if gap ≤ proximityThreshold then
      (st.1, some ⟨cur.startLine, if endLine > cur.endLine then endLine else cur.endLine,
        cur.changes ++ [(lineNum, change)]⟩)
    else
      (st.1 ++ [cur], some ⟨lineNum, endLine, [(lineNum, change)]⟩)

/-- Go `groupChangesByProximity`: cluster sorted keys by proximity. -/
def groupChangesByProximity (diff : DiffResult) (lineNumbers : List Int)
    (proximityThreshold : Int) : List ChangeCluster :=
  let st := lineNumbers.foldl (groupStep diff proximityThreshold) ([], none)
  match st.2 with
  | none => st.1
  | some cur => st.1 ++ [cur]

/-- Go `getClusterBufferRange`: min/max buffer line over the cluster's
changes, with the fallbacks of the source. -/
def getClusterBufferRange (cluster : ChangeCluster) (baseLineOffset : Int)
    (diff : DiffResult) : Int × Int :=
  let st := cluster.changes.foldl
    (fun (acc : Int × Int) (p : Int × LineDiff) =>
      let bufferLine := getBufferLineForChange p.2 p.1 baseLineOffset diff.lineMapping
      let minO := if acc.1 = -1 ∨ bufferLine < acc.1 then bufferLine else acc.1
      let maxO := if bufferLine > acc.2 then bufferLine else acc.2
      let endBufferLine := p.2.endLine + baseLineOffset - 1
      let maxO := if isGroupType p.2.type ∧ endBufferLine > maxO then endBufferLine else maxO
      (minO, maxO))
    (-1, -1)
  let minOld := if st.1 = -1 then cluster.startLine + baseLineOffset - 1 else st.1
  let maxOld := if st.2 = -1 then cluster.endLine + baseLineOffset - 1 else st.2
  (minOld, maxOld)

/-- Go `clusterDistanceFromCursor`: 0 inside the buffer range, else the gap. -/
def clusterDistanceFromCursor (cluster : ChangeCluster) (cursorRow baseLineOffset : Int)
    (diff : DiffResult) : Int :=
  let r := getClusterBufferRange cluster baseLineOffset diff
  if cursorRow ≥ r.1 ∧ cursorRow ≤ r.2 then 0
  else if cursorRow < r.1 then r.1 - cursorRow
  else cursorRow - r.2

/-- Go `getClusterNewLineRange`: min/max new-line number over the cluster. -/
def getClusterNewLineRange (cluster : ChangeCluster) : Int × Int :=
  let st := cluster.changes.foldl
    (fun (acc : Int × Int) (p : Int × LineDiff) =>
      let minN := if p.2.newLineNum > 0 ∧ (acc.1 = -1 ∨ p.2.newLineNum < acc.1)
        then p.2.newLineNum else acc.1
      let maxN := if p.2.newLineNum > 0 ∧ p.2.newLineNum > acc.2 then p.2.newLineNum else acc.2
      let maxN := if isGroupType p.2.type ∧ p.2.endLine > maxN then p.2.endLine else maxN
      (minN, maxN))
    (-1, -1)
  let minNew := if st.1 = -1 then cluster.startLine else st.1
  let maxNew := if st.2 = -1 then cluster.endLine else st.2
  (minNew, maxNew)

/-- Content extraction loop of `createCompletionFromCluster`: new lines `s..e`
(1-indexed), stopping at the end of `newLines` and skipping `i ≤ 0`. -/
def extractLines (newLines : List String) (s e : Int) : List String :=
  (List.range (e - s + 1).toNat).filterMap fun k =>
    let i := s + (k : Int)
    if i - 1 < (newLines.length : Int) ∧ i > 0 then some (newLines.getD (i - 1).toNat "")
    else none

/-- Go `createCompletionFromCluster`: buffer range for the coordinates, new
range for the content. -/
def createCompletionFromCluster (cluster : ChangeCluster) (newLines : List String)
    (baseLineOffset : Int) (diff : DiffResult) : Completion :=
  let br := getClusterBufferRange cluster baseLineOffset diff
  let nr := getClusterNewLineRange cluster
  ⟨br.1, br.2, extractLines newLines nr.1 nr.2⟩

/-- One step of `computeVisualGroups`: coalesce consecutive same-type runs,
flushing on non-groupable change types. -/
def vgStep (changes : List (Int × LineDiff)) (newLines oldLines : List String)
    (st : List VisualGroup × Option VisualGroup) (ln : Int) :
    List VisualGroup × Option VisualGroup :=
  let change := (changes.lookup ln).getD dfltLineDiff
  let groupType : Option String :=
    match change.type with
    | ChangeType.lineModification | ChangeType.lineModificationGroup => some "modification"
    | ChangeType.lineAddition | ChangeType.lineAdditionGroup => some "addition"
    | _ => none
  match groupType with
  | none =>
    match st.2 with
    | none => st
    | some cur => (st.1 ++ [cur], none)
  | some gt =>
    match st.2 with
    | some cur =>
      if cur.type = gt ∧ ln = cur.endLine + 1 then
        let ls := if ln - 1 < (newLines.length : Int)
          then cur.lines ++ [newLines.getD (ln - 1).toNat ""] else cur.lines
        let ols := if gt = "modification" ∧ ln - 1 < (oldLines.length : Int)
          then cur.oldLines ++ [oldLines.getD (ln - 1).toNat ""] else cur.oldLines
        (st.1, some ⟨cur.type, cur.startLine, ln, ls, ols⟩)
      else
        let ls := if ln - 1 < (newLines.length : Int)
          then [newLines.getD (ln - 1).toNat ""] else []
        let ols := if gt = "modification" ∧ ln - 1 < (oldLines.length : Int)
          then [oldLines.getD (ln - 1).toNat ""] else []
        (st.1 ++ [cur], some ⟨gt, ln, ln, ls, ols⟩)
    | none =>
      let ls := if ln - 1 < (newLines.length : Int)
        then [newLines.getD (ln - 1).toNat ""] else []
      let ols := if gt = "modification" ∧ ln - 1 < (oldLines.length : Int)
        then [oldLines.getD (ln - 1).toNat ""] else []
      (st.1, some ⟨gt, ln, ln, ls, ols⟩)

/-- Go `computeVisualGroups`: walk the sorted change keys and coalesce
same-type runs of consecutive line numbers. -/
def computeVisualGroups (changes : List (Int × LineDiff)) (newLines oldLines : List String) :
    List VisualGroup :=
  if changes.isEmpty then []
  else
    let lineNumbers := sortInts (changes.map Prod.fst)
    let st := lineNumbers.foldl (vgStep changes newLines oldLines) ([], none)
    match st.2 with
    | none => st.1
    | some cur => st.1 ++ [cur]

/-- Per-stage old-lines slice of `buildStagesFromClusters`: a zero-filled
slice of the new-lines length with each change's old content written at its
new-line index (or its key) when in bounds. -/
def oldLinesForCluster (cluster : ChangeCluster) (n : Nat) : List String :=
  cluster.changes.foldl
    (fun acc p =>
      let idx : Int := if p.2.newLineNum > 0 then p.2.newLineNum - 1 else p.1 - 1
      if idx ≥ 0 ∧ idx < (n : Int) then acc.set idx.toNat p.2.oldContent else acc)
    (List.replicate n "")

/-- Recursion of `buildStagesFromClusters` over the sorted clusters: each
stage carries a cursor target to the next cluster's buffer start, the last
stage one to its own buffer end with `ShouldRetrigger`. -/
def buildStagesGo (newLines : List String) (filePath : String) (baseLineOffset : Int)
    (diff : DiffResult) : List ChangeCluster → List CompletionStage
  | [] => []
  | cluster :: rest =>
    let completion := createCompletionFromCluster cluster newLines baseLineOffset diff
    let cursorTarget :=
      match rest with
      | [] =>
        CursorPredictionTarget.mk filePath (getClusterBufferRange cluster baseLineOffset diff).2 true
      | next :: _ =>
        CursorPredictionTarget.mk filePath (getClusterBufferRange next baseLineOffset diff).1 false
    let olds := oldLinesForCluster cluster newLines.length
    let vgs := computeVisualGroups cluster.changes newLines olds
    ⟨completion, cursorTarget, rest.isEmpty, vgs⟩ :: buildStagesGo newLines filePath baseLineOffset diff rest

/-- Viewport visibility test of `CreateStages` step 1. -/
def changeVisible (diff : DiffResult) (viewportTop viewportBottom baseLineOffset : Int)
    (p : Int × LineDiff) : Bool :=
  let bufferLine := getBufferLineForChange p.2 p.1 baseLineOffset diff.lineMapping
  let endBufferLine := if isGroupType p.2.type then p.2.endLine + baseLineOffset - 1 else bufferLine
  (viewportTop = 0 ∧ viewportBottom = 0) ∨
    (bufferLine ≥ viewportTop ∧ endBufferLine ≤ viewportBottom)

/-- Steps 1-2 of `CreateStages`: in-viewport clusters first, then
out-of-viewport clusters, each partition clustered over its sorted keys. -/
def allClustersOf (diff : DiffResult) (viewportTop viewportBottom baseLineOffset
    proximityThreshold : Int) : List ChangeCluster :=
  let inView := sortInts ((diff.changes.filter
    (changeVisible diff viewportTop viewportBottom baseLineOffset)).map Prod.fst)
  let outView := sortInts ((diff.changes.filter
    (fun p => ¬ changeVisible diff viewportTop viewportBottom baseLineOffset p)).map Prod.fst)
  groupChangesByProximity diff inView proximityThreshold ++
    groupChangesByProximity diff outView proximityThreshold

/-- Go `CreateStages`: `none` models the `nil` return (no changes, or at
most one cluster); otherwise the clusters are sorted by cursor distance
(ties by start line, stably) and materialised into stages. -/
def CreateStages (diff : DiffResult) (cursorRow viewportTop viewportBottom baseLineOffset
    proximityThreshold : Int) (filePath : String) (newLines : List String) :
    Option (List CompletionStage) :=
  if diff.changes.isEmpty then none
  else
    let allClusters := allClustersOf diff viewportTop viewportBottom baseLineOffset
      proximityThreshold
    if allClusters.length ≤ 1 then none
    else
      let sorted := stableSortBy
        (fun a b =>
          let dA := clusterDistanceFromCursor a cursorRow baseLineOffset diff
          let dB := clusterDistanceFromCursor b cursorRow baseLineOffset diff
          if dA = dB then decide (a.startLine < b.startLine) else decide (dA < dB))
        allClusters
      some (buildStagesGo newLines filePath baseLineOffset diff sorted)

end Text

namespace Prov

/-! ## Provider-side data model.

Completions and responses as the provider packages build them; line content
is `Str` because the providers splice inside lines. -/

structure Completion where
  startLine : Int
  endLineInc : Int
  lines : List Str
deriving DecidableEq

structure CompletionResponse where
  completions : List Completion
  cursorTarget : Option Text.CursorPredictionTarget
deriving DecidableEq

/-- The empty response every provider returns on rejection. -/
def emptyResponse : CompletionResponse := ⟨[], none⟩

/-- Modelled from the spec: the implementation of `provider.IsNoOpReplacement`
is not among the repository's files (only its tests and its caller in the
hosted Sweep provider are).  Per the spec, it compares the trimmed-right join
of the new lines with the trimmed-right join of the original lines. -/
def IsNoOpReplacement (newLines oldLines : List Str) : Bool :=
  trimRightWS (joinNL newLines) = trimRightWS (joinNL oldLines)

end Prov

namespace SweepHosted

/-! ## Hosted Sweep (byte-offset) provider.

Embedding of `hostedProvider.GetCompletion` from the sweep provider package:
everything after the transport call, as a function of the request lines and
the client's response. -/

structure AutocompleteResponse where
  completion : Str
  startIndex : Int
  endIndex : Int
deriving DecidableEq

/-- Byte offset of the cursor in the joined file, as `GetCompletion` computes
it (column clamped to the line length; rows past the end fall through). -/
def cursorPositionAux (cursorLine cursorCol : Int) : List Str → Int → Int
  | [], _ => 0
  | line :: rest, i =>
    if i < cursorLine then ((line.length : Int) + 1) + cursorPositionAux cursorLine cursorCol rest (i + 1)
    else if i = cursorLine then
      (if cursorCol > (line.length : Int) then (line.length : Int) else cursorCol)
    else 0

def cursorPosition (lines : List Str) (cursorRow cursorCol : Int) : Int :=
  cursorPositionAux (cursorRow - 1) cursorCol lines 0

/-- First index at which the old and new line slices differ (stops at the
end of the shorter slice). -/
def firstDiffIdx : List Str → List Str → Nat
  | a :: as, b :: bs => if a = b then firstDiffIdx as bs + 1 else 0
  | _, _ => 0

/-- Backwards scan for the last differing pair of lines: decrement both
indices while they stay above `firstDiff` and the lines agree. -/
def shrinkAux (old new : List Str) (firstDiff : Int) : Nat → Int → Int → Int × Int
  | 0, lo, ln => (lo, ln)
  | Nat.succ fuel, lo, ln =>
    if lo > firstDiff ∧ ln > firstDiff then
      if old.getD lo.toNat [] ≠ new.getD ln.toNat [] then (lo, ln)
      else shrinkAux old new firstDiff fuel (lo - 1) (ln - 1)
    else (lo, ln)

/-- Go `hostedProvider.GetCompletion`, transport elided: clamp the byte
range, substitute, line-diff against the old content, and emit a Completion
covering the changed line range (or an empty response). -/
def getCompletion (lines : List Str) (resp : AutocompleteResponse) : Prov.CompletionResponse :=
  let fileContents := joinNL lines
  if resp.completion = [] ∧ resp.startIndex = 0 ∧ resp.endIndex = 0 then Prov.emptyResponse
  else
    let startIndex := if resp.startIndex > (fileContents.length : Int)
      then (fileContents.length : Int) else resp.startIndex
    let endIndex := if resp.endIndex > (fileContents.length : Int)
      then (fileContents.length : Int) else resp.endIndex
    let startIndex := if startIndex > endIndex then endIndex else startIndex
    let updatedContent :=
      fileContents.take startIndex.toNat ++ resp.completion ++ fileContents.drop endIndex.toNat
    let oldLines := lines
    let newLines := splitNL updatedContent
    let firstDiff : Int := (firstDiffIdx oldLines newLines : Int)
    let lastPair := shrinkAux oldLines newLines firstDiff (oldLines.length + newLines.length)
      ((oldLines.length : Int) - 1) ((newLines.length : Int) - 1)
    if firstDiff ≥ (oldLines.length : Int) ∧ firstDiff ≥ (newLines.length : Int) then
      Prov.emptyResponse
    else
      let changedNewLines := (newLines.drop firstDiff.toNat).take (lastPair.2 + 1 - firstDiff).toNat
      let startLine := firstDiff + 1
      let endLineInc0 := lastPair.1 + 1
      let endLineInc := if endLineInc0 < startLine then startLine else endLineInc0
      if endLineInc ≤ (lines.length : Int) ∧
          Prov.IsNoOpReplacement changedNewLines
            ((lines.drop (startLine - 1).toNat).take (endLineInc - (startLine - 1)).toNat) then
        Prov.emptyResponse
      else
        ⟨[⟨startLine, endLineInc, changedNewLines⟩], none⟩

/-- Go `extractRepoName`: the directory above `src`, `lib`, `app` or `pkg`,
else the immediate parent directory, else "unknown". -/
def extractRepoNameScan : List String → Option String
  | [] => none
  | _ :: [] => none
  | prev :: part :: rest =>
    if part = "src" ∨ part = "lib" ∨ part = "app" ∨ part = "pkg" then some prev
    else extractRepoNameScan (part :: rest)

end SweepHosted

namespace Zeta

/-! ## Zeta (rewrite-with-markers) provider.

Embedding of `Provider.parseCompletion` and its fallback from the zeta
package. -/

def startMarker : Str := "<|editable_region_start|>".toList

def endMarker : Str := "<|editable_region_end|>".toList

def cursorMarker : Str := "<|user_cursor_is_here|>".toList

/-- Editable-window start (0-indexed): `max(0, cursorRow-1-10)`. -/
def editableStart (cursorRow : Int) : Int := max 0 (cursorRow - 1 - 10)

/-- Editable-window end (0-indexed exclusive): `min(len, cursorRow-1+11)`. -/
def editableEnd (lineCount : Nat) (cursorRow : Int) : Int :=
  min (lineCount : Int) (cursorRow - 1 + 10 + 1)

/-- Old text of the editable window that was sent in the prompt. -/
def oldWindowText (lines : List Str) (cursorRow : Int) : Str :=
  joinNL ((lines.drop (editableStart cursorRow).toNat).take
    (editableEnd lines.length cursorRow - editableStart cursorRow).toNat)

/-- Marker-path extraction of `parseCompletion`: strip the cursor marker,
slice from the start marker, skip to past the following newline, and cut at
`"\n" ++ endMarker` when present.  `none` when the start marker or the
newline after it is missing. -/
def extractEditable (completionText : Str) : Option Str :=
  let content := replaceAll completionText cursorMarker []
  match indexOfSub content startMarker with
  | none => none
  | some startIdx =>
    let content := content.drop startIdx
    match indexOfSub content ['\n'] with
    | none => none
    | some newlineIdx =>
      let content := content.drop (newlineIdx + 1)
      match indexOfSub content ('\n' :: endMarker) with
      | none => some content
      | some endIdx => some (content.take endIdx)

/-- Fallback parser `parseSimpleCompletion` (markers missing): splice the
raw response at the cursor. -/
def parseSimpleCompletion (lines : List Str) (cursorRow cursorCol : Int)
    (completionText : Str) : Option Prov.Completion :=
  let completionLines := splitNL completionText
  let firstLine :=
    if cursorRow ≤ (lines.length : Int) then
      let currentLine := lines.getD (cursorRow - 1).toNat []
      let beforeCursor := if cursorCol ≤ (currentLine.length : Int)
        then currentLine.take cursorCol.toNat else currentLine
      beforeCursor ++ completionLines.getD 0 []
    else completionLines.getD 0 []
  some ⟨cursorRow, cursorRow + (completionLines.length : Int) - 1,
    firstLine :: completionLines.tail⟩

/-- Go `Provider.parseCompletion`: marker path replaces the ±10-line
editable window (no-op when the extracted text equals the old window), the
fallback path splices at the cursor. -/
def parseCompletion (lines : List Str) (cursorRow cursorCol : Int)
    (completionText : Str) : Option Prov.Completion :=
  let content := replaceAll completionText cursorMarker []
  if (indexOfSub content startMarker).isSome then
    match extractEditable completionText with
    | none => none
    | some newText =>
      if newText = oldWindowText lines cursorRow then none
      else some ⟨editableStart cursorRow + 1, editableEnd lines.length cursorRow,
        splitNL newText⟩
  else parseSimpleCompletion lines cursorRow cursorCol completionText

end Zeta

namespace Fim

/-! ## Fill-in-the-middle provider.

Embedding of `Provider.GetCompletion`'s post-transport logic and
`buildCompletionResponse` from the fim package. -/

/-- Go `buildCompletionResponse`: prepend the text before the cursor to the
first completion line, append the text after the cursor to the last, and
replace the current row. -/
def buildCompletionResponse (lines : List Str) (cursorRow cursorCol : Int)
    (completionText : Str) : Prov.CompletionResponse :=
  let currentLine := if cursorRow ≥ 1 ∧ cursorRow ≤ (lines.length : Int)
    then lines.getD (cursorRow - 1).toNat [] else []
  let col := min cursorCol (currentLine.length : Int)
  let completionLines := splitNL completionText
  let beforeCursor := currentLine.take col.toNat
  let afterCursor := currentLine.drop col.toNat
  let base := (beforeCursor ++ completionLines.getD 0 []) :: completionLines.tail
  let resultLines := base.dropLast ++ [(base.getLast (by simp)) ++ afterCursor]
  let endLine := if completionLines.length > 1
    then cursorRow + (completionLines.length : Int) - 1 else cursorRow
  if resultLines.length = 1 ∧ endLine = cursorRow ∧ resultLines.getD 0 [] = currentLine then
    Prov.emptyResponse
  else
    ⟨[⟨cursorRow, cursorRow, resultLines⟩], none⟩

/-- Go `Provider.GetCompletion` from the point the completion text and
finish reason are extracted: reject blank output, apply the truncation
policy for `finishReason == "length"`, then build the response. -/
def getCompletion (lines : List Str) (cursorRow cursorCol : Int)
    (completionText : Str) (finishReason : String) : Prov.CompletionResponse :=
  if trimSpace completionText = [] then Prov.emptyResponse
  else
    let completionLines := splitNL completionText
    if finishReason = "length" ∧ completionLines.length > 1 then
      let dropped := joinNL completionLines.dropLast
      if trimSpace dropped = [] then Prov.emptyResponse
      else buildCompletionResponse lines cursorRow cursorCol dropped
    else if finishReason = "length" ∧ completionLines.length = 1 then Prov.emptyResponse
    else buildCompletionResponse lines cursorRow cursorCol completionText

end Fim

namespace Inline

/-! ## Inline (end-of-line) provider.

Embedding of `Provider.GetCompletion` (post-transport) and `buildPrompt`
from the inline package. -/

/-- Text after the clamped cursor on the current row. -/
def afterCursor (lines : List Str) (cursorRow cursorCol : Int) : Str :=
  let currentLine := lines.getD (cursorRow - 1).toNat []
  currentLine.drop (min cursorCol (currentLine.length : Int)).toNat

/-- Text before the clamped cursor on the current row. -/
def beforeCursor (lines : List Str) (cursorRow cursorCol : Int) : Str :=
  let currentLine := lines.getD (cursorRow - 1).toNat []
  currentLine.take (min cursorCol (currentLine.length : Int)).toNat

/-- Go `Provider.GetCompletion` from the point the completion text and
finish reason are extracted: reject blank output, reject truncation, reject
text equal to what already follows the cursor, else replace the current row
with the text before the cursor prepended to the generated text. -/
def getCompletion (lines : List Str) (cursorRow cursorCol : Int)
    (completionText : Str) (finishReason : String) : Prov.CompletionResponse :=
  if trimSpace completionText = [] then Prov.emptyResponse
  else if finishReason = "length" then Prov.emptyResponse
  else if completionText = afterCursor lines cursorRow cursorCol then Prov.emptyResponse
  else
    ⟨[⟨cursorRow, cursorRow, [beforeCursor lines cursorRow cursorCol ++ completionText]⟩],
      none⟩

/-- Lines before the cursor row, each followed by a newline (the prompt
head written by `buildPrompt`'s first loop). -/
def promptHead (ls : List Str) : Str := (ls.map (· ++ ['\n'])).flatten

/-- Go `buildPrompt` after content trimming: the lines above the cursor and
the current line up to the cursor column — the whole line when the column
lies past its end. -/
def buildPromptFromTrimmed (trimmedLines : List Str) (newCursorRow : Nat)
    (cursorCol : Int) : Str :=
  promptHead (trimmedLines.take newCursorRow) ++
    (if newCursorRow < trimmedLines.length then
      let currentLine := trimmedLines.getD newCursorRow []
      if cursorCol ≤ (currentLine.length : Int) then currentLine.take cursorCol.toNat
      else currentLine
    else [])

end Inline

namespace SweepClient

/-! ## Hosted Sweep transport client.

Embedding of `Client.DoAutocomplete` (the retrying variant of
`client/sweep`), `isRetryableTransportError`, `isRetryableResponseError`
and `NewClient`/`NewProvider` key resolution.  A Go `error` is abstracted
to the predicates those functions test, in the order they test them. -/

/-- The facets of a Go error that the retry classifiers inspect. -/
structure GoError where
  isCanceled : Bool := false
  isDeadlineExceeded : Bool := false
  msgHasStreamErrID : Bool := false
  isNetError : Bool := false
  netTimeout : Bool := false
  netTemporary : Bool := false
  isEOF : Bool := false
  isUnexpectedEOF : Bool := false
deriving DecidableEq

/-- Go `isRetryableTransportError`, with the source's test order: context
errors first (never retried), then HTTP/2 stream errors, then `net.Error`
timeout/temporary, then `io.EOF`/`io.ErrUnexpectedEOF`. -/
def isRetryableTransportError : Option GoError → Bool
  | none => false
  | some e =>
    if e.isCanceled ∨ e.isDeadlineExceeded then false
    else if e.msgHasStreamErrID then true
    else if e.isNetError then e.netTimeout ∨ e.netTemporary
    else if e.isUnexpectedEOF ∨ e.isEOF then true
    else false

/-- Go `isRetryableResponseError`: transient read failures, HTTP 429 and
HTTP 5xx. -/
def isRetryableResponseError (statusCode : Int) (e : Option GoError) : Bool :=
  if isRetryableTransportError e then true
  else if statusCode = 429 then true
  else if 500 ≤ statusCode ∧ statusCode ≤ 599 then true
  else false

/-- Outcome of one attempt of the `DoAutocomplete` loop: the `Do` call
fails, reading the response fails (carrying the status code), or a decoded
response comes back. -/
inductive AttemptOutcome where
  | sendErr (e : GoError)
  | respErr (statusCode : Int) (e : GoError)
  | ok (respId : Nat)
deriving DecidableEq

/-- Whether the loop's `continue` branch fires for a failed attempt (the
per-branch retryability checks of the source). -/
def retryableOutcome : AttemptOutcome → Bool
  | AttemptOutcome.sendErr e => isRetryableTransportError (some e)
  | AttemptOutcome.respErr code e => isRetryableResponseError code (some e)
  | AttemptOutcome.ok _ => false

/-- Result of `DoAutocomplete`: the response or the failing outcome, with
the number of attempts performed. -/
inductive DoResult where
  | ok (respId : Nat) (attempts : Nat)
  | err (failedOn : AttemptOutcome) (attempts : Nat)
deriving DecidableEq

def DoResult.attempts : DoResult → Nat
  | DoResult.ok _ n => n
  | DoResult.err _ n => n

/-- Retry loop of `DoAutocomplete`: `remaining` counts how many further
attempts `attempt < maxAttempts` still allows (maxAttempts = 3); with none
left, or with a non-retryable error, the error is returned.  The linear
backoff sleep between attempts is elided: a context cancelled during it
surfaces as a cancelled outcome of the next attempt. -/
def doLoop (outcomes : Nat → AttemptOutcome) : Nat → Nat → DoResult
  | attempt, 0 =>
    match outcomes attempt with
    | AttemptOutcome.ok r => DoResult.ok r attempt
    | AttemptOutcome.sendErr e => DoResult.err (AttemptOutcome.sendErr e) attempt
    | AttemptOutcome.respErr code e => DoResult.err (AttemptOutcome.respErr code e) attempt
  | attempt, Nat.succ rem =>
    match outcomes attempt with
    | AttemptOutcome.ok r => DoResult.ok r attempt
    | AttemptOutcome.sendErr e =>
      if retryableOutcome (AttemptOutcome.sendErr e) then doLoop outcomes (attempt + 1) rem
      else DoResult.err (AttemptOutcome.sendErr e) attempt
    | AttemptOutcome.respErr code e =>
      if retryableOutcome (AttemptOutcome.respErr code e) then doLoop outcomes (attempt + 1) rem
      else DoResult.err (AttemptOutcome.respErr code e) attempt

/-- Go `Client.DoAutocomplete` as a function of the per-attempt outcomes:
attempt 1 with up to 2 retries. -/
def doAutocomplete (outcomes : Nat → AttemptOutcome) : DoResult :=
  doLoop outcomes 1 2

/-- The claim's enumeration of retryable errors: HTTP/2 stream errors,
status 429, status 500-599, and `io.EOF`/`io.ErrUnexpectedEOF` while
reading the body. -/
def claimedRetryable : AttemptOutcome → Bool
  | AttemptOutcome.sendErr e => e.msgHasStreamErrID ∨ e.isEOF ∨ e.isUnexpectedEOF
  | AttemptOutcome.respErr code e =>
    e.msgHasStreamErrID ∨ e.isEOF ∨ e.isUnexpectedEOF ∨ code = 429 ∨
      (500 ≤ code ∧ code ≤ 599)
  | AttemptOutcome.ok _ => false

/-- A transient `net.Error` (`Temporary()` true) that matches none of the
claim's listed categories. -/
def netTemporaryError : GoError := { isNetError := true, netTemporary := true }

/-- Go `NewClient` key resolution: the configured key, else the environment
variable named by `apiKeyEnv` (default `SWEEP_AI_TOKEN`); an empty resolved
key is an error and no client is built.  `getenv` models `os.Getenv`. -/
def newClient (baseURL apiKey apiKeyEnv : String) (getenv : String → String) :
    Except String (String × String) :=
  let resolvedKey :=
    if apiKey = "" then
      getenv (if apiKeyEnv = "" then "SWEEP_AI_TOKEN" else apiKeyEnv)
    else apiKey
  if resolvedKey = "" then Except.error "sweep API key not found"
  else Except.ok (baseURL, resolvedKey)

/-- Go `NewProvider` of the hosted Sweep provider: the pre-check refuses an
empty configured key with an unset environment variable before any client
is constructed; otherwise `NewClient` is called. -/
def newProvider (providerURL apiKey apiKeyEnv : String) (getenv : String → String) :
    Except String (String × String) :=
  if apiKey = "" ∧
      getenv (if apiKeyEnv = "" then "SWEEP_AI_TOKEN" else apiKeyEnv) = "" then
    Except.error "hosted Sweep requires API key"
  else newClient providerURL apiKey apiKeyEnv getenv

end SweepClient

namespace EngineStream

/-! ## Stream-contamination guard of the engine event loop.

Modelled from the spec: the engine's event loop itself is not among the
repository's files (only its prefetch module and the test
`TestStreamContaminationPrevention` are).  Per the spec's ordering
guarantees, the loop compares an incoming chunk's stream identity against
the currently-active stream channel and drops mismatches; streams are
identified here by a numeric channel identity. -/

structure StreamState where
  activeStream : Option Nat
  processed : List String
deriving DecidableEq

/-- Modelled from the spec: a chunk is acted upon only when its channel is
the engine's currently-active stream channel; otherwise it is dropped. -/
def processChunk (st : StreamState) (streamId : Nat) (line : String) : StreamState :=
  if st.activeStream = some streamId then
    ⟨st.activeStream, st.processed ++ [line]⟩
  else st

/-- Cancelling the current stream and attaching a replacement (what
`cancelStreaming()` plus a new dispatch does to the active channel). -/
def switchStream (st : StreamState) (streamId : Nat) : StreamState :=
  ⟨some streamId, st.processed⟩

/-- A run of buffered chunks from one stream, processed in order. -/
def processChunks (st : StreamState) (streamId : Nat) : List String → StreamState
  | [] => st
  | line :: rest => processChunks (processChunk st streamId line) streamId rest

end EngineStream

namespace Text

/-- Zero values used to read fields out of concrete staging results. -/
def dfltVisualGroup : VisualGroup := ⟨"", 0, 0, [], []⟩

def dfltStage : CompletionStage :=
  ⟨⟨0, 0, []⟩, ⟨"", 0, false⟩, false, []⟩

/-- Pure addition at new line `n` (old line absent), as the staging tests
build them. -/
def addChange (n : Int) (content : String) : LineDiff :=
  { type := ChangeType.lineAddition, lineNumber := n, newLineNum := n,
    oldLineNum := -1, content := content }

/-- Modification at line `n` with only the fields the staging tests set. -/
def modChange (n : Int) (content oldContent : String) : LineDiff :=
  { type := ChangeType.lineModification, lineNumber := n,
    content := content, oldContent := oldContent }

/-- Two pure-addition changes nine lines apart: with threshold 3 they form
two clusters, and the second stage's single content line sits at new line 10. -/
def c1Diff : DiffResult :=
  { changes := [(1, addChange 1 "line1"), (10, addChange 10 "line10")],
    oldLineCount := 3, newLineCount := 10 }

def c1NewLines : List String :=
  ["c1", "c2", "c3", "c4", "c5", "c6", "c7", "c8", "c9", "c10"]

def c1Stages : List CompletionStage :=
  (CreateStages c1Diff 1 1 50 1 3 "test.go" c1NewLines).getD []

/-- Three modifications within the proximity threshold: one cluster. -/
def c2Diff : DiffResult :=
  { changes := [(10, modChange 10 "new10" "old10"), (11, modChange 11 "new11" "old11"),
      (12, modChange 12 "new12" "old12")] }

end Text

/-! ## Theorems. -/

theorem splitNL_ne_nil (s : Str) : splitNL s ≠ [] := by
  induction s with
  | nil => simp [splitNL]
  | cons c rest ih =>
    simp only [splitNL]
    split
    · simp
    · cases h : splitNL rest with
      | nil => exact absurd h ih
      | cons l ls => simp

theorem splitNL_length_pos (s : Str) : 0 < (splitNL s).length :=
  List.length_pos.mpr (splitNL_ne_nil s)

namespace Text

/-- C1: the planner's visual groups carry new-file line numbers, not
stage-relative ones.  On a two-cluster diff the second stage has exactly one
content line, yet its visual group spans lines 10..10 — violating the bound
`endLine ≤ len(stage.Completion.Lines)` that the repository's own test
`TestStageVisualGroups_ShouldNotExceedStageContent` (and the spec) demand. -/
theorem createStages_visualGroup_exceeds_stage_content :
    c1Stages.length = 2
    ∧ (c1Stages.getD 1 dfltStage).completion.lines.length = 1
    ∧ ((c1Stages.getD 1 dfltStage).visualGroups.getD 0 dfltVisualGroup).startLine = 10
    ∧ ((c1Stages.getD 1 dfltStage).visualGroups.getD 0 dfltVisualGroup).endLine = 10 := by
  decide

/-- C2 counterexample: a non-empty single-cluster diff makes `CreateStages`
return `nil` (modelled as `none`), not a one-stage result — exactly what the
repository's test `TestCreateStages_SingleCluster` asserts. -/
theorem createStages_single_cluster_counterexample :
    CreateStages c2Diff 10 1 50 1 3 "test.go" (List.replicate 20 "line") = none := by
  decide

/-- C2 amended: for a non-empty diff whose changes fall into a single
proximity cluster, `CreateStages` returns `nil`; a staging result is only
produced with at least two clusters. -/
theorem createStages_single_cluster_returns_nil (diff : DiffResult)
    (cursorRow viewportTop viewportBottom baseLineOffset proximityThreshold : Int)
    (filePath : String) (newLines : List String)
    (hne : diff.changes ≠ [])
    (hone : (allClustersOf diff viewportTop viewportBottom baseLineOffset
      proximityThreshold).length = 1) :
    CreateStages diff cursorRow viewportTop viewportBottom baseLineOffset
      proximityThreshold filePath newLines = none := by
  unfold CreateStages
  have h1 : (allClustersOf diff viewportTop viewportBottom baseLineOffset
      proximityThreshold).length ≤ 1 := le_of_eq hone
  by_cases he : diff.changes.isEmpty <;> simp [he, h1]

/-- C2 witness: the amended statement applied to the concrete
three-modification diff (its changes form one cluster under threshold 3). -/
theorem createStages_single_cluster_returns_nil_witness :
    CreateStages c2Diff 12 1 50 1 3 "w.go" (List.replicate 16 "x") = none :=
  createStages_single_cluster_returns_nil c2Diff 12 1 50 1 3 "w.go"
    (List.replicate 16 "x") (by decide) (by decide)

end Text

/-- C3: the hosted Sweep provider on buffer `["a","b","c"]`: a completion
"B2" over byte range [2,3) yields exactly one Completion with
StartLine = 2, EndLineInc = 2, Lines = ["B2"]; a completion "b" over the
same range yields the empty response. -/
theorem sweep_byte_replace_scenarios :
    SweepHosted.getCompletion ["a".toList, "b".toList, "c".toList]
        ⟨"B2".toList, 2, 3⟩ = ⟨[⟨2, 2, ["B2".toList]⟩], none⟩
    ∧ SweepHosted.getCompletion ["a".toList, "b".toList, "c".toList]
        ⟨"b".toList, 2, 3⟩ = Prov.emptyResponse := by
  decide

/-- Attempts of the retry loop never exceed `attempt + remaining`. -/
theorem doLoop_attempts_le (outcomes : Nat → SweepClient.AttemptOutcome) :
    ∀ remaining attempt,
      (SweepClient.doLoop outcomes attempt remaining).attempts ≤ attempt + remaining := by
  intro remaining
  induction remaining with
  | zero =>
    intro attempt
    cases ho : outcomes attempt <;>
      simp [SweepClient.doLoop, ho, SweepClient.DoResult.attempts]
  | succ rem ih =>
    intro attempt
    cases ho : outcomes attempt with
    | ok r => simp [SweepClient.doLoop, ho, SweepClient.DoResult.attempts]
    | sendErr e =>
      simp only [SweepClient.doLoop, ho]
      split
      · have := ih (attempt + 1)
        omega
      · simp [SweepClient.DoResult.attempts]
    | respErr code e =>
      simp only [SweepClient.doLoop, ho]
      split
      · have := ih (attempt + 1)
        omega
      · simp [SweepClient.DoResult.attempts]

/-- Every attempt before the final one ended in an outcome the code
classifies as retryable. -/
theorem doLoop_retried (outcomes : Nat → SweepClient.AttemptOutcome) :
    ∀ remaining attempt k, attempt ≤ k →
      k < (SweepClient.doLoop outcomes attempt remaining).attempts →
      SweepClient.retryableOutcome (outcomes k) = true := by
  intro remaining
  induction remaining with
  | zero =>
    intro attempt k hak hlt
    exfalso
    cases ho : outcomes attempt <;>
      simp [SweepClient.doLoop, ho, SweepClient.DoResult.attempts] at hlt <;> omega
  | succ rem ih =>
    intro attempt k hak hlt
    cases ho : outcomes attempt with
    | ok r =>
      simp [SweepClient.doLoop, ho, SweepClient.DoResult.attempts] at hlt
      omega
    | sendErr e =>
      simp only [SweepClient.doLoop, ho] at hlt
      by_cases hr : SweepClient.retryableOutcome (SweepClient.AttemptOutcome.sendErr e) = true
      · rw [if_pos hr] at hlt
        by_cases hk : k = attempt
        · rw [hk, ho]; exact hr
        · exact ih (attempt + 1) k (by omega) hlt
      · rw [if_neg hr] at hlt
        simp [SweepClient.DoResult.attempts] at hlt
        omega
    | respErr code e =>
      simp only [SweepClient.doLoop, ho] at hlt
      by_cases hr : SweepClient.retryableOutcome (SweepClient.AttemptOutcome.respErr code e) = true
      · rw [if_pos hr] at hlt
        by_cases hk : k = attempt
        · rw [hk, ho]; exact hr
        · exact ih (attempt + 1) k (by omega) hlt
      · rw [if_neg hr] at hlt
        simp [SweepClient.DoResult.attempts] at hlt
        omega

/-- C5 counterexample: a transient `net.Error` (`Temporary()` true) matches
none of the claim's listed retryable categories, yet `DoAutocomplete`
retries after it — a second attempt succeeds. -/
theorem sweep_retry_netTemporary_counterexample :
    SweepClient.claimedRetryable
        (SweepClient.AttemptOutcome.respErr 200 SweepClient.netTemporaryError) = false
    ∧ SweepClient.doAutocomplete
        (fun n => if n = 1
          then SweepClient.AttemptOutcome.respErr 200 SweepClient.netTemporaryError
          else SweepClient.AttemptOutcome.ok 7) = SweepClient.DoResult.ok 7 2 := by
  decide

/-- C5 amended: `DoAutocomplete` performs at most 3 attempts; it retries
only on errors the code classifies retryable — HTTP/2 stream errors,
status 429, status 500-599, `io.EOF`/`io.ErrUnexpectedEOF` while reading
the body, and `net.Error` timeout/temporary errors; a request error that is
context-cancelled or deadline-exceeded is returned immediately after the
first attempt, never retried. -/
theorem sweep_retry_discipline (outcomes : Nat → SweepClient.AttemptOutcome) :
    (SweepClient.doAutocomplete outcomes).attempts ≤ 3
    ∧ (∀ k, 1 ≤ k → k < (SweepClient.doAutocomplete outcomes).attempts →
        SweepClient.retryableOutcome (outcomes k) = true)
    ∧ (∀ e : SweepClient.GoError,
        outcomes 1 = SweepClient.AttemptOutcome.sendErr e →
        (e.isCanceled = true ∨ e.isDeadlineExceeded = true) →
        SweepClient.doAutocomplete outcomes =
          SweepClient.DoResult.err (SweepClient.AttemptOutcome.sendErr e) 1) := by
  refine ⟨?_, ?_, ?_⟩
  · exact doLoop_attempts_le outcomes 2 1
  · intro k h1 h2
    exact doLoop_retried outcomes 2 1 k h1 h2
  · intro e ho hctx
    have hnr : SweepClient.retryableOutcome (SweepClient.AttemptOutcome.sendErr e) = false := by
      simp only [SweepClient.retryableOutcome, SweepClient.isRetryableTransportError]
      have : (e.isCanceled = true ∨ e.isDeadlineExceeded = true) := hctx
      simp only [if_pos (by simpa using this)]
    unfold SweepClient.doAutocomplete SweepClient.doLoop
    rw [ho]
    simp [hnr]

/-- C6: Zeta marker path: whenever the editable-region extraction succeeds
(both markers handled, cursor marker stripped), the parsed Completion
replaces exactly the ±10-line editable window —
StartLine = max(0, cursorRow-1-10)+1, EndLineInc = min(lineCount,
cursorRow-1+11) — and an extracted text equal to the old window yields no
completion. -/
theorem zeta_marker_window_replacement (lines : List Str) (cursorRow cursorCol : Int)
    (completionText newText : Str)
    (h1 : 1 ≤ cursorRow) (h2 : cursorRow ≤ (lines.length : Int))
    (hx : Zeta.extractEditable completionText = some newText) :
    (newText = Zeta.oldWindowText lines cursorRow →
      Zeta.parseCompletion lines cursorRow cursorCol completionText = none)
    ∧ (newText ≠ Zeta.oldWindowText lines cursorRow →
      Zeta.parseCompletion lines cursorRow cursorCol completionText =
        some ⟨max 0 (cursorRow - 1 - 10) + 1,
          min (lines.length : Int) (cursorRow - 1 + 11), splitNL newText⟩) := by
  have hsome : (indexOfSub (replaceAll completionText Zeta.cursorMarker [])
      Zeta.startMarker).isSome = true := by
    cases hm : indexOfSub (replaceAll completionText Zeta.cursorMarker []) Zeta.startMarker with
    | none => simp [Zeta.extractEditable, hm] at hx
    | some i => simp
  have hwin : Zeta.editableEnd lines.length cursorRow =
      min (lines.length : Int) (cursorRow - 1 + 11) := by
    have harith : cursorRow - 1 + 10 + 1 = cursorRow - 1 + 11 := by ring
    unfold Zeta.editableEnd
    rw [harith]
  constructor
  · intro heq
    unfold Zeta.parseCompletion
    rw [if_pos hsome, hx]
    simp [heq]
  · intro hne
    unfold Zeta.parseCompletion
    rw [if_pos hsome, hx]
    simp only [if_neg hne]
    rw [hwin]
    rfl

/-- C6 witness: buffer `["a","b","c"]`, cursor row 2: a marker response
rewriting the window to `X1\nY2` (cursor marker inside) parses to the
window-replacing completion `(1, 3, ["X1","Y2"])`. -/
theorem zeta_marker_window_replacement_witness :
    Zeta.parseCompletion ["a".toList, "b".toList, "c".toList] 2 0
        "<|editable_region_start|>\nX<|user_cursor_is_here|>1\nY2\n<|editable_region_end|>".toList
      = some ⟨max 0 (2 - 1 - 10) + 1, min (3 : Int) (2 - 1 + 11),
          splitNL "X1\nY2".toList⟩ :=
  (zeta_marker_window_replacement ["a".toList, "b".toList, "c".toList] 2 0
    "<|editable_region_start|>\nX<|user_cursor_is_here|>1\nY2\n<|editable_region_end|>".toList
    "X1\nY2".toList (by decide) (by decide) (by decide)).2 (by decide)

/-- C7: the fill-in-the-middle provider with finishReason "length": a
single-line completion is rejected as empty; a multi-line completion has
its last (presumed-incomplete) line dropped before the completion is built;
when nothing non-whitespace remains after dropping, the response is empty. -/
theorem fim_truncation_drops_last_line (lines : List Str) (cursorRow cursorCol : Int)
    (completionText : Str) :
    Fim.getCompletion lines cursorRow cursorCol completionText "length" =
      (if trimSpace completionText = [] then Prov.emptyResponse
       else if (splitNL completionText).length = 1 then Prov.emptyResponse
       else if trimSpace (joinNL (splitNL completionText).dropLast) = [] then
         Prov.emptyResponse
       else Fim.buildCompletionResponse lines cursorRow cursorCol
         (joinNL (splitNL completionText).dropLast)) := by
  have hpos := splitNL_length_pos completionText
  by_cases h1 : trimSpace completionText = []
  · simp [Fim.getCompletion, h1]
  · by_cases h2 : (splitNL completionText).length = 1
    · have hng : ¬ (splitNL completionText).length > 1 := by omega
      simp [Fim.getCompletion, h1, h2, hng]
    · have hg : (splitNL completionText).length > 1 := by omega
      by_cases h4 : trimSpace (joinNL (splitNL completionText).dropLast) = []
      · simp [Fim.getCompletion, h1, h2, hg, h4]
      · simp [Fim.getCompletion, h1, h2, hg, h4]

/-- C8: the inline provider returns the empty response exactly when the
generated text trims to whitespace, the finish reason is "length", or the
text equals what already follows the cursor; in every other case it returns
a single-line completion replacing only the cursor row, the text before the
cursor prepended to the generated text. -/
theorem inline_reject_cases_exact (lines : List Str) (cursorRow cursorCol : Int)
    (completionText : Str) (finishReason : String)
    (h1 : 1 ≤ cursorRow) (h2 : cursorRow ≤ (lines.length : Int)) :
    (Inline.getCompletion lines cursorRow cursorCol completionText finishReason =
        Prov.emptyResponse
      ↔ (trimSpace completionText = [] ∨ finishReason = "length" ∨
          completionText = Inline.afterCursor lines cursorRow cursorCol))
    ∧ ((trimSpace completionText = [] ∨ finishReason = "length" ∨
          completionText = Inline.afterCursor lines cursorRow cursorCol) ∨
        Inline.getCompletion lines cursorRow cursorCol completionText finishReason =
          ⟨[⟨cursorRow, cursorRow,
            [Inline.beforeCursor lines cursorRow cursorCol ++ completionText]⟩], none⟩) := by
  by_cases ha : trimSpace completionText = []
  · constructor
    · simp [Inline.getCompletion, ha]
    · exact Or.inl (Or.inl ha)
  · by_cases hb : finishReason = "length"
    · constructor
      · simp [Inline.getCompletion, ha, hb]
      · exact Or.inl (Or.inr (Or.inl hb))
    · by_cases hc : completionText = Inline.afterCursor lines cursorRow cursorCol
      · constructor
        · simp [Inline.getCompletion, ha, hb, hc]
        · exact Or.inl (Or.inr (Or.inr hc))
      · constructor
        · simp [Inline.getCompletion, ha, hb, hc, Prov.emptyResponse]
        · refine Or.inr ?_
          simp [Inline.getCompletion, ha, hb, hc]

/-- C8 witness: the spec's inline scenario — buffer `["func main() {"]`,
cursor (1,13), generated text " fmt.Println()", finish "stop" — is none of
the reject cases, so the provider returns the merged single-line
completion. -/
theorem inline_reject_cases_exact_witness :
    Inline.getCompletion ["func main() \x7b".toList] 1 13 " fmt.Println()".toList "stop" =
      ⟨[⟨1, 1, [Inline.beforeCursor ["func main() \x7b".toList] 1 13 ++
        " fmt.Println()".toList]⟩], none⟩ := by
  have h := (inline_reject_cases_exact ["func main() \x7b".toList] 1 13
    " fmt.Println()".toList "stop" (by decide) (by decide)).2
  rcases h with h | h
  · exact absurd h (by decide)
  · exact h

/-- C10: an inline request whose cursor column exceeds the current line's
length is clamped: the prompt ends with the whole current line, and the
completion appends the generated text at the end of that line, replacing
only the cursor row (no out-of-range access in the embedding's total
semantics). -/
theorem inline_cursor_clamped (trimmedLines : List Str) (newCursorRow : Nat)
    (promptCol : Int) (lines : List Str) (cursorRow cursorCol : Int)
    (completionText : Str)
    (ha : newCursorRow < trimmedLines.length)
    (hb : ((trimmedLines.getD newCursorRow []).length : Int) < promptCol)
    (h1 : 1 ≤ cursorRow) (h2 : cursorRow ≤ (lines.length : Int))
    (hc : ((lines.getD (cursorRow - 1).toNat []).length : Int) < cursorCol)
    (hd : trimSpace completionText ≠ []) :
    (Inline.buildPromptFromTrimmed trimmedLines newCursorRow promptCol =
      Inline.promptHead (trimmedLines.take newCursorRow) ++
        trimmedLines.getD newCursorRow [])
    ∧ (Inline.getCompletion lines cursorRow cursorCol completionText "stop" =
      ⟨[⟨cursorRow, cursorRow,
        [lines.getD (cursorRow - 1).toNat [] ++ completionText]⟩], none⟩) := by
  constructor
  · unfold Inline.buildPromptFromTrimmed
    rw [if_pos ha, if_neg (by omega)]
  · have hmin : min cursorCol ((lines.getD (cursorRow - 1).toNat []).length : Int) =
        ((lines.getD (cursorRow - 1).toNat []).length : Int) := by omega
    have hafter : Inline.afterCursor lines cursorRow cursorCol = [] := by
      simp only [Inline.afterCursor]
      rw [hmin]
      simp
    have hbefore : Inline.beforeCursor lines cursorRow cursorCol =
        lines.getD (cursorRow - 1).toNat [] := by
      simp only [Inline.beforeCursor]
      rw [hmin]
      simp
    have hne : completionText ≠ Inline.afterCursor lines cursorRow cursorCol := by
      rw [hafter]
      intro h
      exact hd (by simp [h, trimSpace])
    unfold Inline.getCompletion
    rw [if_neg hd, if_neg (by decide), if_neg hne, hbefore]

/-- C10 witness: buffer `["abc"]`, cursor column 100 on a 3-character line:
the prompt is the whole line and the completion is "abc" ++ "def". -/
theorem inline_cursor_clamped_witness :
    Inline.buildPromptFromTrimmed ["abc".toList] 0 100 =
      Inline.promptHead ([("abc".toList)].take 0) ++ ["abc".toList].getD 0 []
    ∧ Inline.getCompletion ["abc".toList] 1 100 "def".toList "stop" =
      ⟨[⟨1, 1, [["abc".toList].getD ((1 : Int) - 1).toNat [] ++ "def".toList]⟩], none⟩ :=
  inline_cursor_clamped ["abc".toList] 0 100 ["abc".toList] 1 100 "def".toList
    (by decide) (by decide) (by decide) (by decide) (by decide) (by decide)

/-- C9: constructing the hosted Sweep provider errors (and builds no
client) precisely when the configured key is empty and the key environment
variable — `APIKeyEnv`, defaulting to `SWEEP_AI_TOKEN` — is unset; with a
key from either source, construction succeeds. -/
theorem sweep_provider_requires_key (providerURL apiKey apiKeyEnv : String)
    (getenv : String → String) :
    (SweepClient.newProvider providerURL apiKey apiKeyEnv getenv).isOk = false
      ↔ (apiKey = "" ∧
          getenv (if apiKeyEnv = "" then "SWEEP_AI_TOKEN" else apiKeyEnv) = "") := by
  unfold SweepClient.newProvider SweepClient.newClient
  by_cases h : apiKey = "" ∧ getenv (if apiKeyEnv = "" then "SWEEP_AI_TOKEN" else apiKeyEnv) = ""
  · simp [h, Except.isOk, Except.toBool]
  · rw [if_neg h]
    rcases Decidable.not_and_iff_or_not.mp h with hk | he
    · simp only [if_neg hk]
      simp [Except.isOk, Except.toBool, h, hk]
    · by_cases hk : apiKey = ""
      · simp only [if_pos hk]
        simp [Except.isOk, Except.toBool, he, hk]
      · simp only [if_neg hk]
        simp [Except.isOk, Except.toBool, hk]

/-- C4: stream-contamination safety (modelled from the spec): a chunk is
acted upon only when its stream identity equals the engine's active stream;
after the active stream is replaced, any buffered chunks of the old stream
leave the state unchanged, while chunks of the new stream are processed. -/
theorem stream_contamination_prevented (st : EngineStream.StreamState)
    (oldId newId : Nat) (line : String) (chunks : List String)
    (hne : oldId ≠ newId) :
    (st.activeStream ≠ some oldId → EngineStream.processChunk st oldId line = st)
    ∧ (EngineStream.processChunks (EngineStream.switchStream st newId) oldId chunks
        = EngineStream.switchStream st newId)
    ∧ (EngineStream.processChunk (EngineStream.switchStream st newId) newId line
        = ⟨some newId, st.processed ++ [line]⟩) := by
  refine ⟨?_, ?_, ?_⟩
  · intro h
    unfold EngineStream.processChunk
    rw [if_neg h]
  · induction chunks with
    | nil => rfl
    | cons c rest ih =>
      unfold EngineStream.processChunks
      have : EngineStream.processChunk (EngineStream.switchStream st newId) oldId c =
          EngineStream.switchStream st newId := by
        unfold EngineStream.processChunk EngineStream.switchStream
        rw [if_neg (by simpa using fun h => hne h.symm)]
      rw [this]
      exact ih
  · unfold EngineStream.processChunk EngineStream.switchStream
    simp

/-- C4 witness: with stream 1 active and then replaced by stream 2, two
buffered chunks of stream 1 are dropped and a chunk of stream 2 is
processed. -/
theorem stream_contamination_prevented_witness :
    EngineStream.processChunks
        (EngineStream.switchStream ⟨some 1, []⟩ 2) 1 ["stale1", "stale2"]
      = EngineStream.switchStream ⟨some 1, []⟩ 2
    ∧ EngineStream.processChunk (EngineStream.switchStream ⟨some 1, []⟩ 2) 2 "fresh"
      = ⟨some 2, [] ++ ["fresh"]⟩ :=
  ⟨(stream_contamination_prevented ⟨some 1, []⟩ 1 2 "fresh" ["stale1", "stale2"]
      (by decide)).2.1,
   (stream_contamination_prevented ⟨some 1, []⟩ 1 2 "fresh" ["stale1", "stale2"]
      (by decide)).2.2⟩

end Cursortab
